import Mathlib

/-!
Verification development for the `abc` web package: a shallow embedding of
the rendering and asset-resolution pipeline (template engine, asset
pipeline, proxy decorator) together with theorems settling the stated
properties.  Strings are treated as sequences of (ASCII) characters; Go's
byte slices over ASCII data coincide with this view.
-/

namespace Abc

/-! ## String and path helpers (Go `strings` / `path` / `path/filepath`) -/

/-- Go `strings.TrimPrefix`: drop `pre` from the front of `s` when present. -/
def trimPrefixS (s pre : String) : String :=
  if pre.toList.isPrefixOf s.toList then
    String.mk (s.toList.drop pre.toList.length)
  else s

/-- Go `strings.TrimSuffix`: drop `suf` from the end of `s` when present. -/
def trimSuffixS (s suf : String) : String :=
  if suf.toList.reverse.isPrefixOf s.toList.reverse then
    String.mk (s.toList.take (s.toList.length - suf.toList.length))
  else s

/-- Helper for `pathExt`: scan a reversed character list for the extension. -/
def pathExtAux : List Char → List Char → String
  | [], _ => ""
  | '/' :: _, _ => ""
  | '.' :: _, acc => String.mk ('.' :: acc)
  | c :: rest, acc => pathExtAux rest (c :: acc)

/-- Go `filepath.Ext`: the suffix starting at the final dot of the final
path element, or the empty string when that element has no dot. -/
def pathExt (s : String) : String :=
  pathExtAux s.toList.reverse []

/-- Go `path.Join` restricted to already-clean inputs: join two path
elements with a single slash, dropping an empty element. -/
def pathJoin (a b : String) : String :=
  if a = "" then b
  else if b = "" then a
  else a ++ "/" ++ b

/-- Go `filepath.Join(dir, source)` for clean inputs: a leading slash of
`source` is absorbed by the cleaning step. -/
def filepathJoin (dir source : String) : String :=
  pathJoin dir (trimPrefixS source "/")

/-- Split a character list into slash-separated segments. -/
def splitSegs : List Char → List (List Char)
  | [] => [[]]
  | c :: rest =>
    if c = '/' then [] :: splitSegs rest
    else
      match splitSegs rest with
      | [] => [[c]]
      | s :: ss => (c :: s) :: ss

/-- Segments of a path string. -/
def strSegs (s : String) : List String :=
  (splitSegs s.toList).map String.mk

/-! ## `internal/files`: ignore patterns and directory listing -/

/-- Does one of the ignore patterns match at a segment start?  This is the
common core of the four regular expressions in `files.go`
(`^_`, `/_`, `^\.[^.]`, `/\.[^.]`): an underscore, or a dot followed by a
character other than a dot. -/
def segBad : List Char → Bool
  | [] => false
  | [c] => c == '_'
  | c :: c2 :: _ => c == '_' || (c == '.' && c2 != '.')

/-- Scan for an ignore-pattern match right after any slash. -/
def ignoreAux : List Char → Bool
  | [] => false
  | c :: rest => if c = '/' then segBad rest || ignoreAux rest else ignoreAux rest

/-- `files.Ignore`: true when the path matches `^_`, `/_`, `^\.[^.]` or
`/\.[^.]`. -/
def Ignore (s : String) : Bool :=
  segBad s.toList || ignoreAux s.toList

/-- A node of the on-disk file tree: a regular file with contents, or a
directory whose children are kept in `ioutil.ReadDir`'s sorted order. -/
inductive FNode where
  | file (content : String)
  | dir (entries : List (String × FNode))

/-- Find the child of a directory entry list by name. -/
def lookupEntry (es : List (String × FNode)) (n : String) : Option FNode :=
  (es.find? (fun e => e.1 == n)).map (fun e => e.2)

/-- Navigate a file tree along a segment list. -/
def fsFind : FNode → List String → Option FNode
  | n, [] => some n
  | .file _, _ :: _ => none
  | .dir es, s :: rest =>
    match lookupEntry es s with
    | none => none
    | some child => fsFind child rest

mutual

/-- `files.List` on a node already located at path string `src`: an ignored
path yields nothing, a file yields itself, a directory is traversed
recursively with ignored entries skipped silently. -/
def listNode : FNode → String → List String
  | .file _, src => if Ignore src then [] else [src]
  | .dir es, src => if Ignore src then [] else listEntries es src

/-- The directory loop of `files.List`: join each entry name onto the
current path, skip it when ignored, recurse into directories. -/
def listEntries : List (String × FNode) → String → List String
  | [], _ => []
  | (n, child) :: rest, src =>
    (let rel := pathJoin src n
     if Ignore rel then []
     else
       match child with
       | .dir _ => listNode child rel
       | .file _ => [rel]) ++ listEntries rest src

end

/-- `files.List(source)` against file tree `fs` (whose root stands for the
filesystem root of the joined path): an ignored source or a missing path
yields the empty list. -/
def fsList (fs : FNode) (src : String) : List String :=
  if Ignore src then []
  else
    match fsFind fs (strSegs src) with
    | none => []
    | some n => listNode n src

/-- Read a file's contents from the tree, `none` when absent. -/
def readFile (fs : FNode) (p : String) : Option String :=
  match fsFind fs (strSegs p) with
  | some (.file c) => some c
  | _ => none

/-! ## SHA-1 (`crypto/sha1`), needed by `assets.hash`

32-bit machine words are modelled as `Nat` with explicit reduction
modulo `2^32`. -/

/-- `2^32`. -/
def w32 : Nat := 4294967296

/-- Rotate a 32-bit word left by `n` bits. -/
def rotl32 (n x : Nat) : Nat :=
  ((x <<< n) % w32) ||| (x >>> (32 - n))

/-- The SHA-1 round function for round `t`. -/
def sha1F (t b c d : Nat) : Nat :=
  if t < 20 then (b &&& c) ||| ((b ^^^ 4294967295) &&& d)
  else if t < 40 then b ^^^ c ^^^ d
  else if t < 60 then (b &&& c) ||| (b &&& d) ||| (c &&& d)
  else b ^^^ c ^^^ d

/-- The SHA-1 round constant for round `t`. -/
def sha1K (t : Nat) : Nat :=
  if t < 20 then 0x5A827999
  else if t < 40 then 0x6ED9EBA1
  else if t < 60 then 0x8F1BBCDC
  else 0xCA62C1D6

/-- Big-endian 8-byte encoding of a length. -/
def be64 (n : Nat) : List Nat :=
  [(n >>> 56) % 256, (n >>> 48) % 256, (n >>> 40) % 256, (n >>> 32) % 256,
   (n >>> 24) % 256, (n >>> 16) % 256, (n >>> 8) % 256, n % 256]

/-- SHA-1 message padding: `0x80`, zeros to 56 mod 64, 64-bit bit length. -/
def sha1Pad (msg : List Nat) : List Nat :=
  msg ++ 128 :: List.replicate ((119 - msg.length % 64) % 64) 0
      ++ be64 (msg.length * 8)

/-- Group bytes into big-endian 32-bit words. -/
def bytesToWords : List Nat → List Nat
  | b0 :: b1 :: b2 :: b3 :: rest =>
    (((b0 * 256 + b1) * 256 + b2) * 256 + b3) :: bytesToWords rest
  | _ => []

/-- Extend the 16 message words by `k` further schedule words.  `acc` holds
the words generated so far in reverse order (head is the most recent). -/
def sha1Extend : Nat → List Nat → List Nat
  | 0, acc => acc.reverse
  | k + 1, acc =>
    sha1Extend k
      (rotl32 1 ((acc.getD 2 0) ^^^ (acc.getD 7 0) ^^^ (acc.getD 13 0) ^^^ (acc.getD 15 0)) :: acc)

/-- Run the 80 SHA-1 rounds over the schedule words. -/
def sha1Rounds : Nat → Nat × Nat × Nat × Nat × Nat → List Nat → Nat × Nat × Nat × Nat × Nat
  | _, st, [] => st
  | t, (a, b, c, d, e), w :: ws =>
    sha1Rounds (t + 1)
      ((rotl32 5 a + sha1F t b c d + e + w + sha1K t) % w32, a, rotl32 30 b, c, d) ws

/-- Fold the compression function over `k` 64-byte blocks of the padded
message (the recursion is on the block count so that it is structural). -/
def sha1Blocks : Nat → List Nat → Nat × Nat × Nat × Nat × Nat → Nat × Nat × Nat × Nat × Nat
  | 0, _, h => h
  | k + 1, bs, (h0, h1, h2, h3, h4) =>
    let ws := sha1Extend 64 (bytesToWords (bs.take 64)).reverse
    let r := sha1Rounds 0 (h0, h1, h2, h3, h4) ws
    sha1Blocks k (bs.drop 64)
      ((h0 + r.1) % w32, (h1 + r.2.1) % w32, (h2 + r.2.2.1) % w32,
       (h3 + r.2.2.2.1) % w32, (h4 + r.2.2.2.2) % w32)

/-- Lowercase hexadecimal digit. -/
def hexChar (n : Nat) : Char :=
  if n < 10 then Char.ofNat (48 + n) else Char.ofNat (87 + n)

/-- The lowest `k` hexadecimal digits of `n`, most significant first. -/
def toHexW : Nat → Nat → List Char
  | 0, _ => []
  | k + 1, n => toHexW k (n / 16) ++ [hexChar (n % 16)]

/-- The 40-character hexadecimal SHA-1 digest of a byte list. -/
def sha1Hex (msg : List Nat) : String :=
  let padded := sha1Pad msg
  let h := sha1Blocks (padded.length / 64) padded
    (0x67452301, 0xEFCDAB89, 0x98BADCFE, 0x10325476, 0xC3D2E1F0)
  String.mk (toHexW 8 h.1 ++ toHexW 8 h.2.1 ++ toHexW 8 h.2.2.1
    ++ toHexW 8 h.2.2.2.1 ++ toHexW 8 h.2.2.2.2)

/-- The bytes of a string; asset paths are ASCII, where Go's UTF-8 bytes
coincide with the character codes. -/
def strBytes (s : String) : List Nat :=
  s.toList.map Char.toNat

/-- `assets.hash`: the first 12 hex characters of the SHA-1 of the seed. -/
def hash (seed : String) : String :=
  String.mk ((sha1Hex (strBytes seed)).toList.take 12)

/-! ## AssetPipeline (`pkg/web/assets.go`) -/

/-- `assetType`: name, file extension, HTML format string with two `%s`
slots, optional whole-content post-processor. -/
structure AssetType where
  name : String
  ext : String
  html : String
  proc : Option (String → String)

/-- `assetCache`: one cache entry.  The timestamp is an abstract `Nat`
(the value `time.Now()` returned when the entry was built). -/
structure AssetEntry where
  name : String
  mime : String
  time : Nat
  paths : List String
  bytes : String

/-- The `assets` component: production flag, site directory, public root
path, and the cache map (modelled as an association list where the most
recent insertion for a key shadows older ones, like a Go map write). -/
structure Assets where
  prod : Bool
  dir : String
  root : String
  cache : List (String × AssetEntry)

/-- Go map read `a.cache[name]`. -/
def cacheGet (c : List (String × AssetEntry)) (k : String) : Option AssetEntry :=
  (c.find? (fun e => e.1 == k)).map (fun e => e.2)

/-- Go map write `a.cache[name] = entry`. -/
def cachePut (c : List (String × AssetEntry)) (k : String) (v : AssetEntry) :
    List (String × AssetEntry) :=
  (k, v) :: c

/-- `mime.TypeByExtension` restricted to the extensions the five asset
types use. -/
def mimeByExt (ext : String) : String :=
  if ext = ".css" then "text/css; charset=utf-8"
  else if ext = ".js" then "text/javascript; charset=utf-8"
  else if ext = ".md" then "text/markdown; charset=utf-8"
  else ""

/-- The `css` asset type (no post-processor). -/
def cssT : AssetType :=
  { name := "css", ext := ".css", html := "<link rel=\"stylesheet\" href=\"%s\">%s", proc := none }

/-- The `js` asset type (no post-processor). -/
def jsT : AssetType :=
  { name := "js", ext := ".js", html := "<script src=\"%s\">%s</script>", proc := none }

/-- The `paste` asset type (no extension, no post-processor). -/
def pasteT : AssetType :=
  { name := "paste", ext := "", html := "<!-- %s -->\n%s", proc := none }

/-- The `tpl` asset type (no extension, no post-processor). -/
def tplT : AssetType :=
  { name := "tpl", ext := "",
    html := "<script type=\"text/template\" id=\"%s\">%s</script>", proc := none }

/-- The `md` asset type; the markdown-to-sanitized-HTML processor
(blackfriday + bluemonday, an external collaborator) is a parameter. -/
def mdT (markdown : String → String) : AssetType :=
  { name := "md", ext := ".md", html := "<div class=\"md\" id=\"%s\">%s</div>",
    proc := some markdown }

/-- Fill the second `%s` slot of a format string. -/
def sprintf1 : List Char → String → String
  | [], _ => ""
  | '%' :: 's' :: rest, b => b ++ sprintf1 rest b
  | c :: rest, b => String.mk [c] ++ sprintf1 rest b

/-- Fill the first `%s` slot, then hand over to `sprintf1`. -/
def sprintf2Aux : List Char → String → String → String
  | [], _, _ => ""
  | '%' :: 's' :: rest, a, b => a ++ sprintf1 rest b
  | c :: rest, a, b => String.mk [c] ++ sprintf2Aux rest a b

/-- `fmt.Sprintf(format, a, b)` for a format with two `%s` slots. -/
def sprintf2 (format a b : String) : String :=
  sprintf2Aux format.toList a b

/-- A template-helper argument: a string (any other scalar is rendered to
its `%v` string by the Go code before use), or a nested `[]interface\x7b\x7d`
encoded as cons cells so that flattening is a structural recursion. -/
inductive Source where
  | str (s : String)
  | nil
  | cons (head tail : Source)

/-- Flatten one argument into its path strings. -/
def unpackOne : Source → List String
  | .str s => [s]
  | .nil => []
  | .cons h tl => unpackOne h ++ unpackOne tl

/-- `assets.unpackPaths`: flatten the variadic helper arguments into a
list of path strings. -/
def unpackPaths (sources : List Source) : List String :=
  sources.flatMap unpackOne

/-- Go `strings.HasPrefix` (stated over the character list so that it
evaluates by kernel reduction). -/
def hasPrefixS (s pre : String) : Bool :=
  pre.toList.isPrefixOf s.toList

/-- `assets.prefixPath` (non-Windows): restore a leading slash when the
original reference was site-root-relative. -/
def prefixPath (source rel : String) : String :=
  if hasPrefixS source "/" && !(hasPrefixS rel "/") then "/" ++ rel else rel

/-- `filepath.Rel(dir, abs)` for the clean, `dir`-prefixed paths produced
by listing: strip `dir ++ "/"`; a path not under `dir` is kept as is
(mirroring the `err == nil` guard in `resolvePath`). -/
def relPath (dir abs : String) : String :=
  if (dir ++ "/").toList.isPrefixOf abs.toList then
    String.mk (abs.toList.drop (dir.toList.length + 1))
  else abs

/-- `assets.resolvePath`: list the reference joined onto the site
directory, then report each hit relative to the site directory with the
original reference's rootedness restored. -/
def resolvePath (a : Assets) (fs : FNode) (source : String) : List String :=
  (fsList fs (filepathJoin a.dir source)).map
    (fun abs => prefixPath source (relPath a.dir abs))

/-- `assets.resolvePaths`: resolve each reference and concatenate. -/
def resolvePaths (a : Assets) (fs : FNode) (sources : List String) : List String :=
  sources.flatMap (resolvePath a fs)

/-- `assets.bytesFromPaths`: concatenate the contents of every resolved
file, a file that cannot be opened contributing nothing. -/
def bytesFromPaths (a : Assets) (fs : FNode) (paths : List String) : String :=
  String.join ((resolvePaths a fs paths).map
    (fun rel => (readFile fs (filepathJoin a.dir rel)).getD ""))

/-- Apply an asset type's post-processor if it has one. -/
def applyProc (t : AssetType) (b : String) : String :=
  match t.proc with
  | some f => f b
  | none => b

/-- The bundle cache key computed by `combosFromPaths`: content hash of
the concatenated (unresolved) path list plus the type's extension. -/
def combosKey (t : AssetType) (paths : List String) : String :=
  hash (String.join paths) ++ t.ext

/-- `assets.combosFromPaths`: return the cached bundle in production when
present, otherwise (re)read the resolved files from disk, post-process the
bundle as a whole, and write it into the cache.  `now` is the current
time.  Returns the entry together with the updated cache. -/
def combosFromPaths (a : Assets) (fs : FNode) (now : Nat) (t : AssetType)
    (paths : List String) : AssetEntry × List (String × AssetEntry) :=
  let name := combosKey t paths
  match (if a.prod then cacheGet a.cache name else none) with
  | some cached => (cached, a.cache)
  | none =>
    let b := applyProc t (bytesFromPaths a fs paths)
    let e : AssetEntry :=
      { name := name, mime := mimeByExt t.ext, time := now, paths := paths, bytes := b }
    (e, cachePut a.cache name e)

/-- `assets.inlinedFromPath`: per-file cache entry for inline embedding,
under the same production-cache rule (the Go code fills only the `name`
and `bytes` fields here, leaving the rest at their zero values). -/
def inlinedFromPath (a : Assets) (fs : FNode) (t : AssetType)
    (name : String) : AssetEntry × List (String × AssetEntry) :=
  match (if a.prod then cacheGet a.cache name else none) with
  | some cached => (cached, a.cache)
  | none =>
    let b := applyProc t (bytesFromPaths a fs [name])
    let e : AssetEntry := { name := name, mime := "", time := 0, paths := [], bytes := b }
    (e, cachePut a.cache name e)

/-- `path.Join(root, href)` as used for bundle URLs (clean inputs, `href`
already starting with a slash). -/
def joinURL (root href : String) : String :=
  if root = "" then href else root ++ href

/-- `assets.combined`: resolve and bundle the references into one cache
entry and emit one HTML fragment referencing the bundle's synthetic URL.
`concatRoot` is the per-process random root segment.  The `pack[0]` access
of the Go code has no defined result when the unpacked reference list is
empty (a Go runtime panic), modelled as `none`; the cache write performed
before that access is preserved. -/
def combined (a : Assets) (fs : FNode) (now : Nat) (concatRoot : String)
    (t : AssetType) (sources : List Source) :
    Option String × List (String × AssetEntry) :=
  let pack := unpackPaths sources
  let fc := combosFromPaths a fs now t pack
  match pack with
  | [] => (none, fc.2)
  | p0 :: _ =>
    let href := concatRoot ++ fc.1.name
    let href := if hasPrefixS p0 "/" then joinURL a.root href else trimPrefixS href "/"
    (some (sprintf2 t.html href ""), fc.2)

/-! ## JSON values (`encoding/json`, an external collaborator)

The backend body is modelled by its parse outcome: a JSON value with
field/element order preserved, or malformed bytes. -/

/-- A parsed JSON value (numbers as integers; the claims do not involve
floating point). -/
inductive JVal where
  | null
  | bool (b : Bool)
  | num (n : Int)
  | str (s : String)
  | arr (xs : List JVal)
  | obj (fields : List (String × JVal))

/-- A backend response body: either bytes that parse as JSON, or
malformed bytes. -/
inductive Body where
  | jsonValue (v : JVal)
  | malformed (raw : String)

/-- A template environment (`web.Env`, i.e. `map[string]interface{}`),
as an association list where the first binding for a key wins. -/
abbrev Env := List (String × JVal)

/-- `json.Unmarshal(body, &Env{})`: succeeds exactly when the body is a
JSON object. -/
def unmarshalEnv : Body → Except String Env
  | .jsonValue (.obj fields) => .ok fields
  | .jsonValue _ => .error "json: cannot unmarshal value into Go value of type web.Env"
  | .malformed _ => .error "invalid character in JSON input"

/-- Two spaces per indentation level. -/
def ppIndent (d : Nat) : String :=
  String.join (List.replicate d "  ")

mutual

/-- Pretty-print a JSON value at the given indentation depth, in the
style of `json.Indent` with a two-space indent. -/
def ppJson : JVal → Nat → String
  | .null, _ => "null"
  | .bool true, _ => "true"
  | .bool false, _ => "false"
  | .num n, _ => toString n
  | .str s, _ => "\"" ++ s ++ "\""
  | .arr [], _ => "[]"
  | .arr (x :: xs), d =>
    "[\n" ++ ppJsonArr (x :: xs) (d + 1) ++ "\n" ++ ppIndent d ++ "]"
  | .obj [], _ => "\x7b\x7d"
  | .obj (f :: fs), d =>
    "\x7b\n" ++ ppJsonObj (f :: fs) (d + 1) ++ "\n" ++ ppIndent d ++ "\x7d"

/-- Comma-and-newline-separated array elements. -/
def ppJsonArr : List JVal → Nat → String
  | [], _ => ""
  | [x], d => ppIndent d ++ ppJson x d
  | x :: y :: xs, d => ppIndent d ++ ppJson x d ++ ",\n" ++ ppJsonArr (y :: xs) d

/-- Comma-and-newline-separated object fields. -/
def ppJsonObj : List (String × JVal) → Nat → String
  | [], _ => ""
  | [(k, v)], d => ppIndent d ++ "\"" ++ k ++ "\": " ++ ppJson v d
  | (k, v) :: g :: fs, d =>
    ppIndent d ++ "\"" ++ k ++ "\": " ++ ppJson v d ++ ",\n" ++ ppJsonObj (g :: fs) d

end

/-- `json.Indent(&nice, body, "", "  ")`: fails on malformed bytes,
otherwise reformats the JSON with two-space indentation. -/
def indentJSON : Body → Except String String
  | .jsonValue v => .ok (ppJson v 0)
  | .malformed _ => .error "invalid character in JSON input"

mutual

/-- How template execution prints an environment value interpolated into
the output (`text/template`'s value printing; compound values print in
Go's `%v` shape). -/
def jvalRender : JVal → String
  | .null => "<no value>"
  | .bool true => "true"
  | .bool false => "false"
  | .num n => toString n
  | .str s => s
  | .arr xs => "[" ++ jvalRenderArr xs ++ "]"
  | .obj fs => "map[" ++ jvalRenderObj fs ++ "]"

/-- Space-separated element list, Go `%v` style. -/
def jvalRenderArr : List JVal → String
  | [] => ""
  | [x] => jvalRender x
  | x :: y :: xs => jvalRender x ++ " " ++ jvalRenderArr (y :: xs)

/-- Space-separated `key:value` list, Go `%v` style. -/
def jvalRenderObj : List (String × JVal) → String
  | [] => ""
  | [(k, v)] => k ++ ":" ++ jvalRender v
  | (k, v) :: g :: fs => k ++ ":" ++ jvalRender v ++ " " ++ jvalRenderObj (g :: fs)

end

/-- Look a key up in an environment and print it (missing keys print the
zero-value form). -/
def envGet (env : Env) (k : String) : String :=
  match (List.find? (fun p => p.1 == k) env).map (fun p => p.2) with
  | some v => jvalRender v
  | none => "<no value>"

/-! ## TemplateEngine (`pkg/web/engine.go`)

The `html/template` parser is an external collaborator: a template file is
modelled by its parse outcome, either an abstract syntax tree (literal
text, environment interpolations, and calls to the `yield` helper) or a
parse error. -/

/-- A node of a parsed template body. -/
inductive Node where
  | lit (s : String)
  | var (k : String)
  | yield
deriving DecidableEq

/-- A parsed template body. -/
abbrev Tmpl := List Node

/-- A template source file as seen by the compiler: its parse outcome. -/
inductive TmplSrc where
  | good (t : Tmpl)
  | bad (msg : String)

/-- The site directory as the template engine sees it: files in
`filepath.Walk` order, each with its parse outcome.  (`decorate` checks
template existence against the same directory.) -/
abbrev EFS := List (String × TmplSrc)

/-- The compiled template registry: logical name to compiled body.  On a
duplicate name the later file wins, like repeated `New(name)` on one Go
template set; insertions are prepended and lookups take the first hit. -/
abbrev Registry := List (String × Tmpl)

/-- `Template.Lookup` by logical name. -/
def lookupReg (reg : Registry) (n : String) : Option Tmpl :=
  (List.find? (fun p => p.1 == n) reg).map (fun p => p.2)

/-- `Config.frontendExt()`. -/
def frontendExt : String := ".html"

/-- `Config.backendExt()`. -/
def backendExt : String := ".tmpl"

/-- `engine.templateName`: strip the extension and a leading slash (the
backslash normalization is a no-op on the slash-separated paths modelled
here). -/
def templateName (path : String) : String :=
  trimPrefixS (trimSuffixS path (pathExt path)) "/"

/-- The `engine` component.  `funcs` keeps the names of the shared helper
set (the helper bodies live in the execution model); `cfgJson` is the
memoized `Config.json()` blob. -/
structure Engine where
  prod : Bool
  layout : Option String
  templates : Option Registry
  funcs : List String
  cfgJson : JVal

/-- The walk loop of `engine.compileTemplates`: compile every file whose
extension matches the front-end or back-end extension; the first parse
failure aborts the walk with that file's error, keeping the templates
compiled so far. -/
def compileWalk : EFS → Registry → Registry × Option String
  | [], acc => (acc, none)
  | (rel, src) :: rest, acc =>
    let ext := pathExt rel
    if ext != frontendExt && ext != backendExt then compileWalk rest acc
    else
      match src with
      | .good t => compileWalk rest ((templateName rel, t) :: acc)
      | .bad msg => (acc, some msg)

/-- `engine.compileTemplates`: `e.templates = template.New(...)` starts
from an empty registry, then the walk fills it. -/
def compileTemplates (efs : EFS) : Registry × Option String :=
  compileWalk efs []

/-- The current binding of the `yield` helper: the default from
`tmpl.Funcs` (returns the empty string), or the closure installed by
`funcMapLayout` that re-renders the target template with the captured
environment. -/
inductive YieldFn where
  | default
  | selfRender (page : String) (env : Env)

/-- Execute a node list.  The `yield` helper's value is constant over one
execution (the closure is pure), so it is passed in. -/
def execNodes (env : Env) (yieldVal : String) : List Node → Except String String
  | [] => .ok ""
  | .lit s :: rest => (execNodes env yieldVal rest).map (fun t => s ++ t)
  | .var k :: rest => (execNodes env yieldVal rest).map (fun t => envGet env k ++ t)
  | .yield :: rest => (execNodes env yieldVal rest).map (fun t => yieldVal ++ t)

/-- The string an invocation of the `yield` helper produces.  The closure
installed by `funcMapLayout` re-renders the target template with its
captured environment and swallows errors into an empty `template.HTML`;
`fuel` bounds the re-render depth (a self-yielding page would recurse
forever in Go). -/
def yieldValue (reg : Registry) : Nat → YieldFn → String
  | _, .default => ""
  | 0, .selfRender _ _ => ""
  | f + 1, .selfRender p env =>
    match lookupReg reg p with
    | none => ""
    | some body =>
      match execNodes env (yieldValue reg f (.selfRender p env)) body with
      | .ok out => out
      | .error _ => ""

/-- `engine.template`: `ExecuteTemplate` against the registry, with the
given `yield` binding in the shared helper set. -/
def execByName (reg : Registry) (f : Nat) (y : YieldFn) (env : Env)
    (name : String) : Except String String :=
  match lookupReg reg name with
  | none => .error ("html/template: no template " ++ name)
  | some body => execNodes env (yieldValue reg f y) body

/-- The post-compilation part of `engine.execute`: with a configured
layout, `funcMapLayout` rebinds `yield` to a self-render closure when the
target template exists, and the layout template is executed instead. -/
def renderWith (layout : Option String) (reg : Registry) (f : Nat)
    (file : String) (env : Env) : Except String String :=
  match layout with
  | none => execByName reg f .default env (templateName file)
  | some l =>
    let n := templateName file
    let y := if (lookupReg reg n).isSome then YieldFn.selfRender n env else YieldFn.default
    execByName reg f y env (templateName l)

/-- `engine.execute`: recompile when no registry exists or the engine is
not in production mode — note that compilation installs the (possibly
partial) new registry even when it fails — then render. -/
def executeE (e : Engine) (efs : EFS) (f : Nat) (file : String) (env : Env) :
    Engine × Except String String :=
  match e.templates, e.prod with
  | some reg, true => (e, renderWith e.layout reg f file env)
  | _, _ =>
    let c := compileTemplates efs
    let e2 := { e with templates := some c.1 }
    match c.2 with
    | some msg => (e2, .error msg)
    | none => (e2, renderWith e.layout c.1 f file env)

/-- `engine.funcMap` (reached from `Web.FuncMap` / RegisterFunctions):
merge the new helper names and invalidate the compiled registry. -/
def funcMapE (e : Engine) (fns : List String) : Engine :=
  { e with funcs := e.funcs ++ fns, templates := none }

/-- `engine.createEnv`: caller data overlaid on the `prod` flag and the
memoized config blob (caller keys win). -/
def createEnv (e : Engine) (data : Env) : Env :=
  data ++ [("prod", JVal.bool e.prod), ("config", e.cfgJson)]

/-- What was written to the response, or the fatal exit of the process. -/
inductive HttpOut where
  | written (status : Nat) (contentType : Option String) (body : String)
  | notFound
  | fatal (msg : String)
deriving DecidableEq

set_option linter.unusedVariables false in
/-- `engine.respond`: render and write.  Render errors map to a 404.  On
success the Go code calls `rw.WriteHeader(http.StatusOK)`, so the written
status is 200 whatever the `status` argument was. -/
def respondE (e : Engine) (efs : EFS) (f : Nat) (status : Nat) (file : String)
    (data : Env) : Engine × HttpOut :=
  let env := createEnv e data
  match executeE e efs f file env with
  | (e2, .error _) => (e2, .notFound)
  | (e2, .ok out) => (e2, .written 200 (some "text/html; charset=UTF-8") out)

/-- `engine.skipFile`: true when the file cannot be opened under the site
directory. -/
def skipFile (efs : EFS) (file : String) : Bool :=
  !(efs.any (fun p => p.1 == file))

/-! ## ProxyDecorator (`pkg/web/proxy.go`) -/

/-- `proxy.decorate`: derive the candidate template name from the request
path; without a matching template file, pretty-print the body back with
the backend's status; with one, unmarshal the body as a JSON object and
render.  Errors are returned to the caller. -/
def decorateE (e : Engine) (efs : EFS) (f : Nat) (urlPath : String)
    (status : Nat) (body : Body) : Engine × Except String HttpOut :=
  let path := trimPrefixS urlPath "/"
  let base := trimSuffixS path (pathExt path)
  let tmplF := base ++ backendExt
  if skipFile efs tmplF then
    match indentJSON body with
    | .error msg => (e, .error msg)
    | .ok nice => (e, .ok (.written status none nice))
  else
    match unmarshalEnv body with
    | .error msg => (e, .error msg)
    | .ok data =>
      let r := respondE e efs f status tmplF data
      (r.1, .ok r.2)

/-- `proxy.ServeHTTP` after a successful backend round trip: an error
from `decorate` goes to the `fail` closure, whose `log.Fatalln` exits the
process (its `next(rw, r)` line is unreachable). -/
def proxyHandle (e : Engine) (efs : EFS) (f : Nat) (urlPath : String)
    (status : Nat) (body : Body) : Engine × HttpOut :=
  match decorateE e efs f urlPath status body with
  | (e2, .error msg) => (e2, .fatal msg)
  | (e2, .ok out) => (e2, out)

/-! ## Auxiliary definitions and concrete fixtures used by the theorems -/

/-- Replace every `yield` node of a template body by a literal: the
layout with the page's output spliced into the yield slots. -/
def substYield (bs : String) (ns : List Node) : List Node :=
  ns.map (fun n =>
    match n with
    | .yield => .lit bs
    | x => x)

/-- A site with one backend decoration template `widget.tmpl`. -/
def efsWidget : EFS :=
  [("widget.tmpl", .good [.lit "Hello ", .var "name"])]

/-- A production engine before its first compile. -/
def engWidget : Engine :=
  { prod := true, layout := none, templates := none, funcs := [], cfgJson := .null }

/-- A previously compiled, valid registry. -/
def regOld : Registry := [("old", [.lit "OLD"])]

/-- A site whose second template file fails to parse. -/
def efsBroken : EFS :=
  [("a.html", .good [.lit "A"]), ("b.html", .bad "template: b.html: unexpected EOF")]

/-- A development engine holding the previously valid registry. -/
def engDevPrev : Engine :=
  { prod := false, layout := none, templates := some regOld, funcs := [], cfgJson := .null }

/-- A production engine holding a valid registry. -/
def engProdReg : Engine :=
  { prod := true, layout := none, templates := some regOld, funcs := [], cfgJson := .null }

/-- A site directory with a `css` directory and a markdown file. -/
def siteFS : FNode :=
  .dir [("site", .dir
    [("css", .dir [("a.css", .file "A"), ("b.css", .file "B")]),
     ("notes.md", .file "N")])]

/-- A cached bundle entry stored under `hash "css" ++ ".css"`. -/
def entryBundle : AssetEntry :=
  { name := "2f84417a9e73.css", mime := "text/css; charset=utf-8", time := 1,
    paths := ["css"], bytes := "CACHED" }

/-- A cached per-file entry for `notes.md`. -/
def entryFile : AssetEntry :=
  { name := "notes.md", mime := "", time := 0, paths := [], bytes := "INLINE" }

/-- A production asset pipeline with both kinds of warm cache entries. -/
def assetsWarm : Assets :=
  { prod := true, dir := "site", root := "",
    cache := [("2f84417a9e73.css", entryBundle), ("notes.md", entryFile)] }

/-- A production asset pipeline with an empty cache. -/
def assetsCold : Assets :=
  { prod := true, dir := "site", root := "", cache := [] }

/-- A development asset pipeline with the same warm cache. -/
def assetsDev : Assets :=
  { prod := false, dir := "site", root := "",
    cache := [("2f84417a9e73.css", entryBundle), ("notes.md", entryFile)] }

/-- A site directory containing a file whose name starts with two dots
beside ignorable entries. -/
def fsDotted : FNode :=
  .dir [("site", .dir
    [("css", .dir [("..x", .file "X"), ("_skip", .file "S"), (".hid", .file "H")])])]

/-- A registry with a page and a layout that wraps the yield slot. -/
def regLayout : Registry :=
  [("page", [.lit "A", .var "x"]), ("layout", [.lit "[", .yield, .lit "]"])]

/-- A production engine configured with that layout. -/
def engLayout : Engine :=
  { prod := true, layout := some "layout", templates := some regLayout,
    funcs := [], cfgJson := .null }

/-- A one-binding environment. -/
def envX : Env := [("x", .str "B")]

/-! ## Theorems -/

set_option maxRecDepth 10000

/-- C1: for a proxied request `/widget` whose decoration template
`widget.tmpl` exists and whose backend body parses as the JSON object
`{"name":"x"}` with backend status 201, the code renders the template
with the parsed object as the environment — but `engine.respond` calls
`rw.WriteHeader(http.StatusOK)`, ignoring its `status` argument, so the
written status is 200, not the backend's 201 the claim requires. -/
theorem c1_decorate_status_not_propagated :
    (proxyHandle engWidget efsWidget 5 "/widget" 201
        (.jsonValue (.obj [("name", .str "x")]))).2
      = .written 200 (some "text/html; charset=UTF-8") "Hello x"
  ∧ (200 : Nat) ≠ 201 :=
  ⟨rfl, by decide⟩

/-- C2: for a proxied request `/widget` whose decoration template
`widget.tmpl` exists but whose backend body does not parse as a JSON
object, `decorate` returns the unmarshal error and `proxy.ServeHTTP`
routes it into its `fail` closure, whose `log.Fatalln` terminates the
process — the failure is fatal, not a recoverable 404. -/
theorem c2_malformed_json_fatal :
    (proxyHandle engWidget efsWidget 5 "/widget" 200 (.malformed "not json")).2
      = .fatal "invalid character in JSON input" :=
  rfl

/-- C3 counterexample: a development-mode engine holding the previously
valid registry `regOld` recompiles on render against a site whose second
template fails to parse.  The triggering request gets a 404, but the
registry is not left in its previous state: it now holds the partial new
registry containing only the first template. -/
theorem c3_counterexample :
    (respondE engDevPrev efsBroken 5 200 "a.html" []).2 = HttpOut.notFound
  ∧ (respondE engDevPrev efsBroken 5 200 "a.html" []).1.templates
      = some [("a", [Node.lit "A"])]
  ∧ (respondE engDevPrev efsBroken 5 200 "a.html" []).1.templates ≠ some regOld :=
  ⟨rfl, rfl, by decide⟩

/-- C3 as amended: when compilation fails during a render (first compile,
or any render outside production mode), the triggering request is mapped
to a 404, and the registry is replaced by the partial new registry that
`compileTemplates` built up to the failing file — not left in its
previous (or undefined) state. -/
theorem c3_compile_failure_partial_registry (e : Engine) (efs : EFS)
    (f status : Nat) (file : String) (data : Env) (msg : String)
    (hc : (compileTemplates efs).2 = some msg)
    (hr : e.templates = none ∨ e.prod = false) :
    respondE e efs f status file data
      = ({ e with templates := some (compileTemplates efs).1 }, .notFound) := by
  obtain ⟨prod, layout, tmpls, funcs, cfg⟩ := e
  rcases hr with h | h
  · simp only at h
    subst h
    simp [respondE, executeE, hc]
  · simp only at h
    subst h
    cases tmpls <;> simp [respondE, executeE, hc]

/-- C3 witness: the amended statement at the concrete broken site. -/
theorem c3_compile_failure_partial_registry_witness :
    (compileTemplates efsBroken).2 = some "template: b.html: unexpected EOF"
  ∧ respondE engDevPrev efsBroken 5 200 "a.html" []
      = ({ engDevPrev with templates := some (compileTemplates efsBroken).1 },
         .notFound) :=
  ⟨rfl, c3_compile_failure_partial_registry engDevPrev efsBroken 5 200 "a.html" []
    "template: b.html: unexpected EOF" rfl (Or.inr rfl)⟩

/-- C4: asset-cache lookups, for bundle entries (`combosFromPaths`) and
per-file inline entries (`inlinedFromPath`) alike: in production mode an
existing entry for the key is returned with the cache untouched and
without reading the filesystem (the result is the same for every `fs`);
in development mode the entry is recomputed from disk regardless of the
cache contents (it equals the empty-cache recomputation) and is still
written into the cache. -/
theorem c4_asset_cache_policy (a : Assets) (fs : FNode) (now : Nat)
    (t : AssetType) (paths : List String) (name : String) (entry : AssetEntry) :
    (a.prod = true → cacheGet a.cache (combosKey t paths) = some entry →
      combosFromPaths a fs now t paths = (entry, a.cache))
  ∧ (a.prod = true → cacheGet a.cache name = some entry →
      inlinedFromPath a fs t name = (entry, a.cache))
  ∧ (a.prod = false →
      combosFromPaths a fs now t paths
        = ((combosFromPaths { a with cache := [] } fs now t paths).1,
           cachePut a.cache (combosKey t paths)
             (combosFromPaths { a with cache := [] } fs now t paths).1))
  ∧ (a.prod = false →
      inlinedFromPath a fs t name
        = ((inlinedFromPath { a with cache := [] } fs t name).1,
           cachePut a.cache name
             (inlinedFromPath { a with cache := [] } fs t name).1)) := by
  obtain ⟨prod, dir, root, cache⟩ := a
  refine ⟨?_, ?_, ?_, ?_⟩
  · intro hp hit
    simp only at hp
    subst hp
    simp [combosFromPaths, hit]
  · intro hp hit
    simp only at hp
    subst hp
    simp [inlinedFromPath, hit]
  · intro hp
    simp only at hp
    subst hp
    rfl
  · intro hp
    simp only at hp
    subst hp
    rfl

/-- C4 witness: the warm production cache is reused as-is for both the
bundle key and the per-file key, and the development pipeline recomputes
and writes the bundle entry. -/
theorem c4_asset_cache_policy_witness :
    assetsWarm.prod = true
  ∧ cacheGet assetsWarm.cache (combosKey cssT ["css"]) = some entryBundle
  ∧ combosFromPaths assetsWarm siteFS 7 cssT ["css"] = (entryBundle, assetsWarm.cache)
  ∧ inlinedFromPath assetsWarm siteFS pasteT "notes.md" = (entryFile, assetsWarm.cache)
  ∧ assetsDev.prod = false
  ∧ combosFromPaths assetsDev siteFS 7 cssT ["css"]
      = ((combosFromPaths { assetsDev with cache := [] } siteFS 7 cssT ["css"]).1,
         cachePut assetsDev.cache (combosKey cssT ["css"])
           (combosFromPaths { assetsDev with cache := [] } siteFS 7 cssT ["css"]).1) :=
  ⟨rfl, rfl,
   (c4_asset_cache_policy assetsWarm siteFS 7 cssT ["css"] "notes.md" entryBundle).1
     rfl rfl,
   (c4_asset_cache_policy assetsWarm siteFS 7 cssT ["css"] "notes.md" entryFile).2.1
     rfl rfl,
   rfl,
   (c4_asset_cache_policy assetsDev siteFS 7 cssT ["css"] "notes.md" entryBundle).2.2.1
     rfl⟩

/-- C5: in production mode a render against an existing registry does not
recompile — the engine state is returned unchanged, the render uses the
existing registry, and the outcome does not depend on the on-disk site at
all; `funcMap` (RegisterFunctions) invalidates the registry; outside
production mode, and whenever no registry exists yet, a render installs a
freshly compiled registry for the current site. -/
theorem c5_registry_compile_policy (e : Engine) (reg : Registry)
    (efs efs2 : EFS) (f : Nat) (file : String) (env : Env) (fns : List String) :
    (e.prod = true → e.templates = some reg →
      executeE e efs f file env = (e, renderWith e.layout reg f file env)
      ∧ executeE e efs f file env = executeE e efs2 f file env)
  ∧ (funcMapE e fns).templates = none
  ∧ (e.prod = false →
      (executeE e efs f file env).1.templates = some (compileTemplates efs).1)
  ∧ (e.templates = none →
      (executeE e efs f file env).1.templates = some (compileTemplates efs).1) := by
  obtain ⟨prod, layout, tmpls, funcs, cfg⟩ := e
  refine ⟨?_, rfl, ?_, ?_⟩
  · intro hp ht
    simp only at hp ht
    subst hp
    subst ht
    exact ⟨rfl, rfl⟩
  · intro hp
    simp only at hp
    subst hp
    cases tmpls <;>
      cases h : (compileTemplates efs).2 <;> simp [executeE, h]
  · intro ht
    simp only at ht
    subst ht
    cases h : (compileTemplates efs).2 <;> cases prod <;> simp [executeE, h]

/-- C5 witness: the production engine with a warm registry renders `old`
without recompiling (and independently of the broken site on disk), and
a development render installs the freshly compiled registry. -/
theorem c5_registry_compile_policy_witness :
    engProdReg.prod = true
  ∧ engProdReg.templates = some regOld
  ∧ executeE engProdReg efsBroken 5 "old" []
      = (engProdReg, renderWith engProdReg.layout regOld 5 "old" [])
  ∧ executeE engProdReg efsBroken 5 "old" [] = executeE engProdReg [] 5 "old" []
  ∧ (funcMapE engProdReg ["extra"]).templates = none
  ∧ engDevPrev.prod = false
  ∧ (executeE engDevPrev efsBroken 5 "old" []).1.templates
      = some (compileTemplates efsBroken).1 :=
  ⟨rfl, rfl,
   ((c5_registry_compile_policy engProdReg regOld efsBroken [] 5 "old" [] ["extra"]).1
     rfl rfl).1,
   ((c5_registry_compile_policy engProdReg regOld efsBroken [] 5 "old" [] ["extra"]).1
     rfl rfl).2,
   (c5_registry_compile_policy engProdReg regOld efsBroken [] 5 "old" [] ["extra"]).2.1,
   rfl,
   (c5_registry_compile_policy engDevPrev regOld efsBroken [] 5 "old" [] ["extra"]).2.2.1
     rfl⟩

/-- C6 counterexample: for the reference list `["css"]`, which resolves to
the two files `css/a.css` and `css/b.css`, the bundle cache key is not the
content hash of the resolved path list plus the extension — the code
hashes the unresolved reference list. -/
theorem c6_counterexample :
    resolvePaths assetsCold siteFS ["css"] = ["css/a.css", "css/b.css"]
  ∧ (combosFromPaths assetsCold siteFS 0 cssT ["css"]).1.name
      ≠ hash (String.join (resolvePaths assetsCold siteFS ["css"])) ++ cssT.ext :=
  ⟨rfl, by decide⟩

/-- C6 as amended: the bundle cache key is the content hash of the
concatenated unpacked (pre-resolution) reference list plus the asset
type's extension, and the bundle payload is the straight concatenation of
all resolved files' bytes in resolution order, post-processed once as a
whole when the type defines a processor. -/
theorem c6_bundle_key_and_payload (prod : Bool) (dir root : String)
    (fs : FNode) (now : Nat) (t : AssetType) (sources : List Source) :
    (combosFromPaths ⟨prod, dir, root, []⟩ fs now t (unpackPaths sources)).1.name
      = hash (String.join (unpackPaths sources)) ++ t.ext
  ∧ (combosFromPaths ⟨prod, dir, root, []⟩ fs now t (unpackPaths sources)).1.bytes
      = applyProc t (String.join
          ((resolvePaths ⟨prod, dir, root, []⟩ fs (unpackPaths sources)).map
            (fun rel => (readFile fs (filepathJoin dir rel)).getD ""))) := by
  cases prod <;> exact ⟨rfl, rfl⟩

/-- Helper: `combined` changes the cache exactly the way its
`combosFromPaths` call does, whether or not the reference list unpacks to
anything. -/
theorem combined_snd (a : Assets) (fs : FNode) (now : Nat) (cr : String)
    (t : AssetType) (sources : List Source) :
    (combined a fs now cr t sources).2
      = (combosFromPaths a fs now t (unpackPaths sources)).2 := by
  unfold combined
  cases unpackPaths sources <;> rfl

/-- Helper: in production mode a cache hit for the bundle key is returned
with the cache untouched. -/
theorem combosFromPaths_hit (a : Assets) (fs : FNode) (now : Nat)
    (t : AssetType) (paths : List String) (e : AssetEntry)
    (hp : a.prod = true)
    (hl : cacheGet a.cache (combosKey t paths) = some e) :
    combosFromPaths a fs now t paths = (e, a.cache) := by
  simp [combosFromPaths, hp, hl]

/-- Helper: in production mode, after any `combosFromPaths` call the
returned cache maps the bundle key to the returned entry. -/
theorem combosFromPaths_cached (a : Assets) (fs : FNode) (now : Nat)
    (t : AssetType) (paths : List String) (hp : a.prod = true) :
    cacheGet (combosFromPaths a fs now t paths).2 (combosKey t paths)
      = some (combosFromPaths a fs now t paths).1 := by
  cases hl : cacheGet a.cache (combosKey t paths) with
  | some e =>
    have hif : (if a.prod then cacheGet a.cache (combosKey t paths) else none)
        = some e := by rw [hp]; simpa using hl
    simp only [combosFromPaths]
    rw [hif]
    exact hl
  | none =>
    have hif : (if a.prod then cacheGet a.cache (combosKey t paths) else none)
        = none := by rw [hp]; simpa using hl
    simp only [combosFromPaths]
    rw [hif]
    simp [cacheGet, cachePut]

/-- Helper: a second `combosFromPaths` call with the same reference list
and the same disk, against the cache the first call produced, yields the
same bundle name and the same payload bytes. -/
theorem combos_second_call (a : Assets) (fs : FNode) (now now2 : Nat)
    (t : AssetType) (paths : List String) :
    (combosFromPaths { a with cache := (combosFromPaths a fs now t paths).2 }
        fs now2 t paths).1.name
      = (combosFromPaths a fs now t paths).1.name
  ∧ (combosFromPaths { a with cache := (combosFromPaths a fs now t paths).2 }
        fs now2 t paths).1.bytes
      = (combosFromPaths a fs now t paths).1.bytes := by
  obtain ⟨prod, dir, root, cache⟩ := a
  cases prod
  · exact ⟨rfl, rfl⟩
  · have h2 := combosFromPaths_cached ⟨true, dir, root, cache⟩ fs now t paths rfl
    rw [combosFromPaths_hit _ fs now2 t paths _ rfl h2]
    exact ⟨rfl, rfl⟩

/-- C9: `Combined` is deterministic within one process: a second call with
the same ordered reference list, the unchanged disk, and the cache state
left by the first call produces the same HTML fragment (hence the same
synthetic URL), and the underlying bundle entry carries the same cache
key and the same byte payload — whatever the timestamps of the two
calls. -/
theorem c9_combined_deterministic (a : Assets) (fs : FNode) (now now2 : Nat)
    (cr : String) (t : AssetType) (sources : List Source) :
    (combined { a with cache := (combined a fs now cr t sources).2 }
        fs now2 cr t sources).1
      = (combined a fs now cr t sources).1
  ∧ (combosFromPaths { a with cache := (combined a fs now cr t sources).2 }
        fs now2 t (unpackPaths sources)).1.name
      = (combosFromPaths a fs now t (unpackPaths sources)).1.name
  ∧ (combosFromPaths { a with cache := (combined a fs now cr t sources).2 }
        fs now2 t (unpackPaths sources)).1.bytes
      = (combosFromPaths a fs now t (unpackPaths sources)).1.bytes := by
  have hs := combined_snd a fs now cr t sources
  have hc := combos_second_call a fs now now2 t (unpackPaths sources)
  rw [hs]
  refine ⟨?_, hc.1, hc.2⟩
  unfold combined
  cases hp : unpackPaths sources with
  | nil => rfl
  | cons p0 rest =>
    rw [hp] at hc
    simp only [hc.1]

/-- C10 counterexample: a non-empty argument list consisting of one empty
nested list unpacks to the empty reference list, so `pack[0]` is an
out-of-range access and the operation has no defined result — `Combined`
is not total on every non-empty argument list. -/
theorem c10_counterexample :
    [Source.nil].length = 1
  ∧ (combined assetsCold siteFS 0 "/assets/abcdefabcdef/" cssT [Source.nil]).1
      = none :=
  ⟨rfl, rfl⟩

/-- Helper: executing a node list where the `yield` helper produces `bs`
is the same as executing the node list with every yield slot replaced by
the literal `bs`, under any other yield binding. -/
theorem execNodes_substYield (env : Env) (bs w : String) (ns : List Node) :
    execNodes env bs ns = execNodes env w (substYield bs ns) := by
  induction ns with
  | nil => rfl
  | cons n rest ih => cases n <;> simp [execNodes, substYield, ih]

/-- C8: with a layout configured, rendering a logical template executes
the layout template instead, and each `yield` invocation inside it
produces exactly the bytes that directly executing the page template
alone with the same environment produces — the render equals executing
the layout with the page's direct output spliced into the yield slots —
provided that direct execution succeeds. -/
theorem c8_layout_yield_indirection (e : Engine) (reg : Registry) (efs : EFS)
    (f : Nat) (file l : String) (L : Tmpl) (env : Env) (bs : String)
    (hp : e.prod = true) (ht : e.templates = some reg) (hl : e.layout = some l)
    (hnl : templateName l = l)
    (hL : lookupReg reg l = some L)
    (hdirect : execByName reg f (.selfRender (templateName file) env) env
        (templateName file) = .ok bs) :
    (executeE e efs (f + 1) file env).2 = execNodes env "" (substYield bs L) := by
  obtain ⟨prod, layout, tmpls, funcs, cfg⟩ := e
  simp only at hp ht hl
  subst hp
  subst ht
  subst hl
  show renderWith (some l) reg (f + 1) file env = _
  cases hlk : lookupReg reg (templateName file) with
  | none =>
    unfold execByName at hdirect
    rw [hlk] at hdirect
    cases hdirect
  | some body =>
    have hbody : execNodes env (yieldValue reg f (.selfRender (templateName file) env)) body
        = .ok bs := by
      unfold execByName at hdirect
      rw [hlk] at hdirect
      exact hdirect
    have hyv : yieldValue reg (f + 1) (.selfRender (templateName file) env) = bs := by
      unfold yieldValue
      rw [hlk]
      show (match execNodes env
              (yieldValue reg f (.selfRender (templateName file) env)) body with
            | .ok out => out
            | .error _ => "") = bs
      rw [hbody]
    simp only [renderWith]
    rw [hnl]
    simp only [hlk, Option.isSome_some, if_true]
    unfold execByName
    rw [hL, hyv]
    exact execNodes_substYield env bs "" L

/-- C8 witness: rendering `page` under the configured `layout` yields the
layout with the page's direct output `AB` in the yield slot. -/
theorem c8_layout_yield_indirection_witness :
    engLayout.prod = true
  ∧ engLayout.templates = some regLayout
  ∧ engLayout.layout = some "layout"
  ∧ templateName "layout" = "layout"
  ∧ lookupReg regLayout "layout" = some [Node.lit "[", Node.yield, Node.lit "]"]
  ∧ execByName regLayout 1 (.selfRender (templateName "page") envX) envX
      (templateName "page") = .ok "AB"
  ∧ (executeE engLayout [] 2 "page" envX).2
      = execNodes envX "" (substYield "AB" [Node.lit "[", Node.yield, Node.lit "]"]) :=
  ⟨rfl, rfl, rfl, rfl, rfl, rfl,
   c8_layout_yield_indirection engLayout regLayout [] 1 "page" "layout"
     [Node.lit "[", Node.yield, Node.lit "]"] envX "AB" rfl rfl rfl rfl rfl rfl⟩

/-- Helper: `splitSegs` always yields at least one segment. -/
theorem splitSegs_exists_cons (cs : List Char) : ∃ s ss, splitSegs cs = s :: ss := by
  induction cs with
  | nil => exact ⟨[], [], rfl⟩
  | cons c rest ih =>
    by_cases hc : c = '/'
    · exact ⟨[], splitSegs rest, by simp [splitSegs, hc]⟩
    · obtain ⟨s, ss, h⟩ := ih
      exact ⟨c :: s, ss, by simp [splitSegs, hc, h]⟩

/-- Helper: splitting into segments distributes over a slash. -/
theorem splitSegs_append (u v : List Char) :
    splitSegs (u ++ '/' :: v) = splitSegs u ++ splitSegs v := by
  induction u with
  | nil => simp [splitSegs]
  | cons c u2 ih =>
    by_cases hc : c = '/'
    · simp [splitSegs, hc, ih]
    · obtain ⟨s, ss, h⟩ := splitSegs_exists_cons u2
      simp [splitSegs, hc, ih, h]

/-- Helper: when the path does not start with a slash, its first segment
starts with the path's first character. -/
theorem splitSegs_head_ne (c : Char) (rest : List Char) (hc : c ≠ '/') :
    ∃ s ss, splitSegs (c :: rest) = (c :: s) :: ss ∧ splitSegs rest = s :: ss := by
  obtain ⟨s, ss, h⟩ := splitSegs_exists_cons rest
  exact ⟨s, ss, by simp [splitSegs, hc, h], h⟩

/-- Helper: a path on which the start-of-path ignore patterns fail has a
good first segment. -/
theorem headGood (cs s : List Char) (ss : List (List Char))
    (h1 : segBad cs = false) (hsp : splitSegs cs = s :: ss) : segBad s = false := by
  cases cs with
  | nil =>
    simp only [splitSegs, List.cons.injEq] at hsp
    rw [← hsp.1]
    rfl
  | cons c rest =>
    by_cases hc : c = '/'
    · subst hc
      simp only [splitSegs, ite_true, List.cons.injEq] at hsp
      rw [← hsp.1]
      rfl
    · obtain ⟨s2, ss2, hh, hr⟩ := splitSegs_head_ne c rest hc
      rw [hh, List.cons.injEq] at hsp
      rw [← hsp.1]
      cases rest with
      | nil =>
        simp only [splitSegs, List.cons.injEq] at hr
        rw [← hr.1]
        exact h1
      | cons r rest2 =>
        by_cases hr2 : r = '/'
        · subst hr2
          simp only [splitSegs, ite_true, List.cons.injEq] at hr
          rw [← hr.1]
          simp only [segBad, Bool.or_eq_false_iff] at h1 ⊢
          exact h1.1
        · obtain ⟨s3, ss3, hh2, hr3⟩ := splitSegs_head_ne r rest2 hr2
          rw [hh2, List.cons.injEq] at hr
          rw [← hr.1]
          exact h1

/-- Helper: a path on which the after-slash ignore patterns fail has only
good segments after the first one. -/
theorem tailGood (cs : List Char) (h : ignoreAux cs = false) :
    ∀ seg ∈ (splitSegs cs).tail, segBad seg = false := by
  induction cs with
  | nil => intro seg hseg; simp [splitSegs] at hseg
  | cons c rest ih =>
    intro seg hseg
    by_cases hc : c = '/'
    · subst hc
      simp only [ignoreAux, ite_true, Bool.or_eq_false_iff] at h
      simp only [splitSegs, ite_true, List.tail_cons] at hseg
      obtain ⟨s, ss, hsp⟩ := splitSegs_exists_cons rest
      rw [hsp] at hseg
      rcases List.mem_cons.mp hseg with rfl | hmem
      · exact headGood rest seg ss h.1 hsp
      · have ht := ih h.2
        rw [hsp] at ht
        exact ht seg hmem
    · simp only [ignoreAux, if_neg hc] at h
      obtain ⟨s2, ss2, hh, hr⟩ := splitSegs_head_ne c rest hc
      rw [hh, List.tail_cons] at hseg
      have ht := ih h
      rw [hr, List.tail_cons] at ht
      exact ht seg hseg

/-- Helper: a non-ignored path has no segment matching the segment-start
patterns. -/
theorem ignore_segs (p : String) (h : Ignore p = false) :
    ∀ cs ∈ splitSegs p.toList, segBad cs = false := by
  unfold Ignore at h
  rw [Bool.or_eq_false_iff] at h
  intro cs hcs
  obtain ⟨s, ss, hsp⟩ := splitSegs_exists_cons p.toList
  rw [hsp] at hcs
  rcases List.mem_cons.mp hcs with rfl | hmem
  · exact headGood p.toList cs ss h.1 hsp
  · have ht := tailGood p.toList h.2
    rw [hsp, List.tail_cons] at ht
    exact ht cs hmem

mutual

/-- Helper: every path `files.List` returns is non-ignored. -/
theorem ign_listNode (node : FNode) (src p : String)
    (h : p ∈ listNode node src) : Ignore p = false := by
  cases node with
  | file c =>
    cases hi : Ignore src with
    | true => simp [listNode, hi] at h
    | false =>
      simp only [listNode, hi, Bool.false_eq_true, if_false, List.mem_singleton] at h
      rw [h]
      exact hi
  | dir es =>
    cases hi : Ignore src with
    | true => simp [listNode, hi] at h
    | false =>
      simp only [listNode, hi, Bool.false_eq_true, if_false] at h
      exact ign_listEntries es src p h

/-- Helper: every path the directory loop of `files.List` returns is
non-ignored. -/
theorem ign_listEntries (es : List (String × FNode)) (src p : String)
    (h : p ∈ listEntries es src) : Ignore p = false := by
  match es with
  | [] => simp [listEntries] at h
  | (n, child) :: rest =>
    simp only [listEntries] at h
    rw [List.mem_append] at h
    rcases h with h | h
    · cases hi : Ignore (pathJoin src n) with
      | true => rw [hi] at h; simp at h
      | false =>
        rw [hi] at h
        simp only [Bool.false_eq_true, if_false] at h
        cases child with
        | file c =>
          rw [List.mem_singleton] at h
          rw [h]
          exact hi
        | dir es2 =>
          exact ign_listNode (.dir es2) (pathJoin src n) p h
    · exact ign_listEntries rest src p h

end

/-- C7 counterexample: a file named `..x` is not matched by any ignore
pattern (the dot patterns require a non-dot right after the leading dot),
so `Resolve` returns the path `css/..x`, whose segment `..x` begins with
`.` and is neither the `..` parent reference nor a bare dot. -/
theorem c7_counterexample :
    resolvePath assetsCold fsDotted "css" = ["css/..x"]
  ∧ "..x" ∈ strSegs "css/..x"
  ∧ "..x".toList.head? = some '.'
  ∧ "..x" ≠ ".." ∧ "..x" ≠ "." :=
  ⟨rfl, by decide, rfl, by decide, by decide⟩

/-- C7 as amended: every segment of every path `Resolve` returns fails
the segment-start ignore patterns — it does not begin with `_`, and does
not begin with `.` immediately followed by a character other than `.`
(so the exclusion covers every `..`-prefixed name, not only the exact
parent reference); ignored entries are skipped silently at every level
and an unresolvable reference yields the empty list rather than an
error. -/
theorem c7_resolve_no_hidden_segments (a : Assets) (fs : FNode)
    (source p seg : String)
    (hp : p ∈ resolvePath a fs source) (hs : seg ∈ strSegs p) :
    segBad seg.toList = false := by
  unfold resolvePath at hp
  rw [List.mem_map] at hp
  obtain ⟨ab, habs, rfl⟩ := hp
  have hig : Ignore ab = false := by
    unfold fsList at habs
    cases hi : Ignore (filepathJoin a.dir source) with
    | true => rw [hi] at habs; simp at habs
    | false =>
      rw [hi] at habs
      simp only [Bool.false_eq_true, if_false] at habs
      cases hf : fsFind fs (strSegs (filepathJoin a.dir source)) with
      | none => rw [hf] at habs; simp at habs
      | some n =>
        rw [hf] at habs
        exact ign_listNode n _ ab habs
  have hsegs := ignore_segs ab hig
  have hrel : ∀ cs ∈ splitSegs (relPath a.dir ab).toList, segBad cs = false := by
    unfold relPath
    by_cases hpre : (a.dir ++ "/").toList.isPrefixOf ab.toList = true
    · rw [if_pos hpre]
      obtain ⟨rest, hrest⟩ := List.isPrefixOf_iff_prefix.mp hpre
      have hdata : (a.dir ++ "/").toList = a.dir.toList ++ ['/'] :=
        String.data_append a.dir "/"
      rw [hdata] at hrest
      have habslist : ab.toList = a.dir.toList ++ '/' :: rest := by
        rw [← hrest]
        simp
      intro cs hcs
      have hdrop : (ab.toList.drop (a.dir.toList.length + 1)) = rest := by
        rw [habslist,
            show a.dir.toList ++ '/' :: rest = (a.dir.toList ++ ['/']) ++ rest by simp,
            show a.dir.toList.length + 1 = (a.dir.toList ++ ['/']).length by simp]
        exact List.drop_left _ _
      have hmk : (String.mk (ab.toList.drop (a.dir.toList.length + 1))).toList
          = ab.toList.drop (a.dir.toList.length + 1) := rfl
      rw [hmk, hdrop] at hcs
      apply hsegs
      rw [habslist, splitSegs_append]
      exact List.mem_append_right _ hcs
    · rw [if_neg hpre]
      exact hsegs
  have hpref : ∀ cs ∈ splitSegs (prefixPath source (relPath a.dir ab)).toList,
      segBad cs = false := by
    unfold prefixPath
    by_cases hb : (hasPrefixS source "/" && !hasPrefixS (relPath a.dir ab) "/") = true
    · rw [if_pos hb]
      intro cs hcs
      have hsl : ("/" ++ relPath a.dir ab).toList = '/' :: (relPath a.dir ab).toList :=
        String.data_append "/" (relPath a.dir ab)
      rw [hsl] at hcs
      simp only [splitSegs, ite_true] at hcs
      rcases List.mem_cons.mp hcs with rfl | hmem
      · rfl
      · exact hrel cs hmem
    · rw [if_neg hb]
      exact hrel
  unfold strSegs at hs
  rw [List.mem_map] at hs
  obtain ⟨cs, hcs, rfl⟩ := hs
  exact hpref cs hcs

/-- C7 witness: the amended statement at a concrete resolved path. -/
theorem c7_resolve_no_hidden_segments_witness :
    ("css/a.css" ∈ resolvePath assetsCold siteFS "css")
  ∧ ("a.css" ∈ strSegs "css/a.css")
  ∧ segBad "a.css".toList = false :=
  ⟨by decide, by decide,
   c7_resolve_no_hidden_segments assetsCold siteFS "css" "css/a.css" "a.css"
     (by decide) (by decide)⟩

/-- C10 as amended: `Combined` has a defined result exactly when the
unpacked reference list is non-empty; when it unpacks to the empty list —
in particular for the empty argument list — the `pack[0]` access has no
defined result. -/
theorem c10_total_iff_unpacked_nonempty (a : Assets) (fs : FNode) (now : Nat)
    (cr : String) (t : AssetType) (sources : List Source) :
    (combined a fs now cr t sources).1.isSome = !(unpackPaths sources).isEmpty := by
  cases h : unpackPaths sources <;> simp [combined, h]

end Abc

